import Mathlib

/-!
Verification of the notify backend core (event model, error model, and the
inotify adapter) against its specification.  The Rust sources embedded here
are `src/backend/src/event.rs`, `src/backend/src/backend.rs` and
`src/backend-inotify/src/lib.rs`.  Paths are modelled as strings, the
native inotify bitmask as a structure of booleans (one per flag consumed
by the adapter), and the FIFO buffer — whose source file is not part of
the provided tree — is modelled from the specification.
-/

namespace Notify

/-- Filesystem paths (`PathBuf`) are modelled as strings. -/
abbrev Path := String

/-! ## Event model (from `src/backend/src/event.rs`) -/

/-- From `enum AccessMode` in event.rs. -/
inductive AccessMode
  | Any
  | Execute
  | Read
  | Write
  | Other (s : String)
deriving DecidableEq

/-- From `enum AccessKind` in event.rs. -/
inductive AccessKind
  | Any
  | Read
  | Open (m : AccessMode)
  | Close (m : AccessMode)
  | Other (s : String)
deriving DecidableEq

/-- From `enum CreateKind` in event.rs. -/
inductive CreateKind
  | Any
  | File
  | Folder
  | Other (s : String)
deriving DecidableEq

/-- From `enum DataChange` in event.rs. -/
inductive DataChange
  | Any
  | Size
  | Content
  | Other (s : String)
deriving DecidableEq

/-- From `enum MetadataKind` in event.rs. -/
inductive MetadataKind
  | Any
  | AccessTime
  | WriteTime
  | Permissions
  | Ownership
  | Extended (s : String)
  | Other (s : String)
deriving DecidableEq

/-- From `enum RenameMode` in event.rs. -/
inductive RenameMode
  | Any
  | To
  | From
  | Other (s : String)
deriving DecidableEq

/-- From `enum ModifyKind` in event.rs. -/
inductive ModifyKind
  | Any
  | Data (d : DataChange)
  | Metadata (m : MetadataKind)
  | Name (r : RenameMode)
  | Other (s : String)
deriving DecidableEq

/-- From `enum RemoveKind` in event.rs. -/
inductive RemoveKind
  | Any
  | File
  | Folder
  | Other (s : String)
deriving DecidableEq

/-- From `enum EventKind` in event.rs: the top-level classification. -/
inductive EventKind
  | Any
  | Access (a : AccessKind)
  | Create (c : CreateKind)
  | Modify (m : ModifyKind)
  | Remove (r : RemoveKind)
  | Other (s : String)
deriving DecidableEq

/-- The type-erased attribute map (`AnyMap`) of an event.  Its entries are
type-erased values; for this development only its identity as data matters
(it is excluded from equality and hashing), so entries are modelled as
opaque numeric tokens. -/
abbrev AnyMap := List Nat

/-- From `struct Event` in event.rs: kind, paths, optional relation id,
attribute map, and the source backend name. -/
structure Event where
  kind : EventKind
  paths : List Path
  relid : Option Nat
  attrs : AnyMap
  source : String
deriving DecidableEq

/-- From `impl PartialEq for Event` in event.rs: equality compares `kind`,
`paths`, `relid` and `source`, and ignores `attrs`. -/
def Event.eqExceptAttrs (a b : Event) : Bool :=
  a.kind = b.kind && a.paths = b.paths && a.relid = b.relid && a.source = b.source

/-- From `impl Hash for Event` in event.rs: the hasher is fed exactly the
fields `kind`, `paths`, `relid` and `source`, in that order.  Two events
hash identically (under any deterministic hasher) exactly when the streams
of fields fed to the hasher coincide; this definition is that stream. -/
def Event.hashInput (a : Event) : EventKind × List Path × Option Nat × String :=
  (a.kind, a.paths, a.relid, a.source)

/-! ## Error model (from `src/backend/src/backend.rs`) -/

/-- Kinds of native I/O failures (`std::io::ErrorKind`), restricted to a
representative set: the one kind the conversion distinguishes plus others. -/
inductive IoErrorKind
  | NotFound
  | PermissionDenied
  | Interrupted
  | WouldBlock
  | Other (code : Nat)
deriving DecidableEq

/-- A native I/O failure (`std::io::Error`), carrying its kind. -/
structure IoError where
  kind : IoErrorKind
deriving DecidableEq

/-- Capabilities declared by backends (`enum Capability`), restricted to
the five the inotify adapter declares. -/
inductive Capability
  | EmitOnAccess
  | FollowSymlinks
  | TrackRelated
  | WatchFiles
  | WatchFolders
deriving DecidableEq

/-- From `enum Error` in backend.rs: single-cause initialisation failure.
The FFI conversion failures carry opaque payloads modelled as numbers. -/
inductive Error
  | Generic (s : String)
  | Io (e : IoError)
  | NotImplemented
  | Unavailable (reason : Option String)
  | NonExistent (paths : List Path)
  | NotSupported (c : Capability)
  | FfiNul (e : Nat)
  | FfiIntoString (e : Nat)
  | FfiFromBytes (e : Nat)
deriving DecidableEq

/-- From `impl From for Error` (io::Error) in backend.rs: a NotFound kind
is reinterpreted as `NonExistent` with an empty path list, anything else
becomes `Io`. -/
def Error.fromIo (err : IoError) : Error :=
  match err.kind with
  | IoErrorKind.NotFound => Error.NonExistent []
  | _ => Error.Io err

/-- From `enum ErrorWrap` in backend.rs: composite initialisation failure
describing which paths are affected. -/
inductive ErrorWrap
  | General (e : Error)
  | All (e : Error)
  | Single (e : Error) (paths : List Path)
  | Multiple (es : List (Error × List Path))
deriving DecidableEq

/-- From `ErrorWrap::as_error_vec` in backend.rs: reduces to a list of
causes, discarding all path information. -/
def ErrorWrap.as_error_vec : ErrorWrap → List Error
  | ErrorWrap.Multiple ve => ve.map (fun p => p.1)
  | ErrorWrap.General err => [err]
  | ErrorWrap.All err => [err]
  | ErrorWrap.Single err _ => [err]

/-- From `impl From for ErrorWrap` (Error) in backend.rs: wraps as General. -/
def ErrorWrap.fromError (err : Error) : ErrorWrap :=
  ErrorWrap.General err

/-- From `impl From for ErrorWrap` (io::Error) in backend.rs: converts the
I/O failure to an `Error`, then wraps it. -/
def ErrorWrap.fromIo (err : IoError) : ErrorWrap :=
  ErrorWrap.fromError (Error.fromIo err)

/-- True exactly on the `Single` and `Multiple` variants. -/
def ErrorWrap.isSingleOrMultiple : ErrorWrap → Bool
  | ErrorWrap.Single _ _ => true
  | ErrorWrap.Multiple _ => true
  | _ => false

/-! ## Inotify native records (from `src/backend-inotify/src/lib.rs`) -/

/-- The native inotify bitmask (`EventMask`), modelled as one boolean per
flag the adapter consumes.  The field `openFlag` models `EventMask::OPEN`
(the flag is named after the open syscall; `open` is a reserved word). -/
structure EventMask where
  access : Bool := false
  attrib : Bool := false
  close_write : Bool := false
  close_nowrite : Bool := false
  create : Bool := false
  delete : Bool := false
  delete_self : Bool := false
  modify : Bool := false
  move_self : Bool := false
  moved_from : Bool := false
  moved_to : Bool := false
  openFlag : Bool := false
  unmount : Bool := false
  isdir : Bool := false
  q_overflow : Bool := false
  ignored : Bool := false
deriving DecidableEq

/-- One native inotify record (`inotify::Event`) as consumed by the
adapter: its flag mask, the optionally attached name, and the rename
correlation cookie (a 32-bit unsigned value, modelled as a number). -/
structure NativeEvent where
  mask : EventMask
  name : Option String := none
  cookie : Nat := 0
deriving DecidableEq

/-- The stable adapter name (`BACKEND_NAME` in lib.rs). -/
def BACKEND_NAME : String := "inotify"

/-- From the `kind:` expression inside `Backend::process_events` in lib.rs:
the if/else precedence chain mapping a native mask to an `EventKind`. -/
def translateKind (m : EventMask) : EventKind :=
  if m.access then EventKind.Access AccessKind.Any
  else if m.attrib then EventKind.Modify (ModifyKind.Metadata MetadataKind.Any)
  else if m.close_write then EventKind.Access (AccessKind.Close AccessMode.Write)
  else if m.close_nowrite then EventKind.Access (AccessKind.Close AccessMode.Read)
  else if m.create then
    EventKind.Create (if m.isdir then CreateKind.Folder else CreateKind.File)
  else if m.delete || m.delete_self then
    EventKind.Remove (if m.isdir then RemoveKind.Folder else RemoveKind.File)
  else if m.modify then EventKind.Modify (ModifyKind.Data DataChange.Any)
  else if m.move_self then EventKind.Modify (ModifyKind.Name RenameMode.Any)
  else if m.moved_from then EventKind.Modify (ModifyKind.Name RenameMode.From)
  else if m.moved_to then EventKind.Modify (ModifyKind.Name RenameMode.To)
  else if m.openFlag then EventKind.Access (AccessKind.Open AccessMode.Any)
  else if m.unmount then EventKind.Remove (RemoveKind.Other "unmount")
  else EventKind.Any

/-- From the `Event` literal inside `Backend::process_events` in lib.rs:
the full translation of one native record into a notify event. -/
def translateEvent (e : NativeEvent) : Event :=
  { kind := translateKind e.mask
    paths := match e.name with
      | none => []
      | some s => [s]
    relid := match e.cookie with
      | 0 => none
      | c => some c
    attrs := []
    source := BACKEND_NAME }

/-- Spec-side definition for the refinement claim C1, following the §4.4
table of the specification: an ordered list of (condition, resulting kind)
rows, evaluated top to bottom, first match wins, defaulting to `Any`. -/
def specPrecedenceRows : List ((EventMask → Bool) × (EventMask → EventKind)) :=
  [ (fun m => m.access, fun _ => EventKind.Access AccessKind.Any),
    (fun m => m.attrib, fun _ => EventKind.Modify (ModifyKind.Metadata MetadataKind.Any)),
    (fun m => m.close_write, fun _ => EventKind.Access (AccessKind.Close AccessMode.Write)),
    (fun m => m.close_nowrite, fun _ => EventKind.Access (AccessKind.Close AccessMode.Read)),
    (fun m => m.create, fun m =>
      EventKind.Create (if m.isdir then CreateKind.Folder else CreateKind.File)),
    (fun m => m.delete || m.delete_self, fun m =>
      EventKind.Remove (if m.isdir then RemoveKind.Folder else RemoveKind.File)),
    (fun m => m.modify, fun _ => EventKind.Modify (ModifyKind.Data DataChange.Any)),
    (fun m => m.move_self, fun _ => EventKind.Modify (ModifyKind.Name RenameMode.Any)),
    (fun m => m.moved_from, fun _ => EventKind.Modify (ModifyKind.Name RenameMode.From)),
    (fun m => m.moved_to, fun _ => EventKind.Modify (ModifyKind.Name RenameMode.To)),
    (fun m => m.openFlag, fun _ => EventKind.Access (AccessKind.Open AccessMode.Any)),
    (fun m => m.unmount, fun _ => EventKind.Remove (RemoveKind.Other "unmount")) ]

/-- Spec-side first-match evaluation of an ordered table of rows: checks
the conditions in listed order, stops at the first match, and yields
`EventKind.Any` when no row matches. -/
def decodeByRows (rows : List ((EventMask → Bool) × (EventMask → EventKind)))
    (m : EventMask) : EventKind :=
  match rows with
  | [] => EventKind.Any
  | (cond, result) :: rest => if cond m then result m else decodeByRows rest m

/-! ## Stream protocol and buffer -/

/-- Stream-level failures (`stream::Error`).  Modelled from the spec: the
stream module is not part of the provided tree; §6 lists the single
variant, and lib.rs consumes only `StreamError::UpstreamOverflow`. -/
inductive StreamError
  | UpstreamOverflow
deriving DecidableEq

/-- One outcome of a pull (`Poll` over `Option` of an item, from the
futures streaming protocol consumed by the backend contract): no event
currently available, one event, end of stream, or a stream-level failure. -/
inductive PollOutcome
  | notReady
  | item (e : Event)
  | endOfStream
  | failure (err : StreamError)
deriving DecidableEq

/-- Modelled from the spec: the FIFO `Buffer` (its source file is not part
of the provided tree).  §2: an ordered queue with explicit close
semantics; the producer pushes, the consumer polls; closing is terminal
and drains remaining items before signaling end-of-stream. -/
structure Buffer where
  queue : List Event
  closed : Bool
deriving DecidableEq

/-- Modelled from the spec: a fresh, open, empty buffer (`Buffer::new`). -/
def Buffer.new : Buffer :=
  { queue := [], closed := false }

/-- Modelled from the spec: pushing appends to the queue; a closed buffer
is terminal and accepts nothing further. -/
def Buffer.push (b : Buffer) (e : Event) : Buffer :=
  if b.closed then b else { b with queue := b.queue ++ [e] }

/-- Modelled from the spec: closing is terminal. -/
def Buffer.close (b : Buffer) : Buffer :=
  { b with closed := true }

/-- Modelled from the spec: polling yields the oldest queued event if any;
an empty closed buffer reports end-of-stream, an empty open one reports
that nothing is currently available. -/
def Buffer.poll : Buffer → PollOutcome × Buffer
  | { queue := e :: rest, closed := c } => (PollOutcome.item e, { queue := rest, closed := c })
  | { queue := [], closed := true } => (PollOutcome.endOfStream, { queue := [], closed := true })
  | { queue := [], closed := false } => (PollOutcome.notReady, { queue := [], closed := false })

/-! ## The inotify adapter (from `src/backend-inotify/src/lib.rs`) -/

/-- From `struct Backend` in lib.rs, restricted to the state the stream
protocol touches: the internal buffer.  The native session and the
readiness-driver handle carry no stream-relevant state; what the native
session yields is passed to `poll` as an explicit argument. -/
structure Backend where
  buffer : Buffer
deriving DecidableEq

/-- From the loop body of `Backend::process_events` in lib.rs: walks the
native batch in order; a record with the queue-overflow flag closes the
buffer and reports the overflow failure at once; a record with the ignored
flag closes the buffer and stops the walk; any other record is translated
and pushed. -/
def processEventsAux : Buffer → List NativeEvent → Buffer × Option StreamError
  | b, [] => (b, none)
  | b, e :: rest =>
    if e.mask.q_overflow then (b.close, some StreamError.UpstreamOverflow)
    else if e.mask.ignored then (b.close, none)
    else processEventsAux (b.push (translateEvent e)) rest

/-- From `Backend::process_events` in lib.rs. -/
def Backend.processEvents (b : Backend) (events : List NativeEvent) :
    Backend × Option StreamError :=
  let (buf, err) := processEventsAux b.buffer events
  ({ buffer := buf }, err)

/-- From `Stream::poll` for `Backend` in lib.rs: a closed buffer is polled
directly (the native queue is not read again); otherwise the freshly read
native batch — passed here as `fromKernel` — is processed, a failure from
processing is propagated immediately, and otherwise the buffer is polled. -/
def Backend.poll (b : Backend) (fromKernel : List NativeEvent) :
    PollOutcome × Backend :=
  if b.buffer.closed then
    let (out, buf) := b.buffer.poll
    (out, { buffer := buf })
  else
    match processEventsAux b.buffer fromKernel with
    | (buf, some err) => (PollOutcome.failure err, { buffer := buf })
    | (buf, none) =>
      let (out, buf2) := buf.poll
      (out, { buffer := buf2 })

/-- Drives the adapter for a number of pulls against a schedule of native
batches: each pull that actually reads the native queue (buffer still
open) consumes the next scheduled batch, an exhausted schedule reads as
an empty batch, and a pull on a closed buffer reads nothing. -/
def runPolls : Backend → List (List NativeEvent) → Nat → List PollOutcome
  | _, _, 0 => []
  | b, batches, k + 1 =>
    if b.buffer.closed then
      let (out, b2) := b.poll []
      out :: runPolls b2 batches k
    else
      match batches with
      | [] =>
        let (out, b2) := b.poll []
        out :: runPolls b2 [] k
      | batch :: rest =>
        let (out, b2) := b.poll batch
        out :: runPolls b2 rest k

/-- Discriminates success of an `Except` value. -/
def exceptOk {ε α : Type} : Except ε α → Bool
  | Except.ok _ => true
  | Except.error _ => false

/-- From the watch-registration loop of `NotifyBackend::new` in lib.rs:
registers every path in input order, stopping at the first failure (the
try operator on `add_watch`). -/
def addAllWatches (addWatch : Path → Except IoError Unit) : List Path → Except IoError Unit
  | [] => Except.ok ()
  | p :: rest =>
    match addWatch p with
    | Except.error e => Except.error e
    | Except.ok _ => addAllWatches addWatch rest

/-- From `NotifyBackend::new` in lib.rs: initialises the native session,
registers a watch for every path in input order, and only then returns an
adapter with a fresh buffer; any failure is converted through the
io::Error conversion chain into an `ErrorWrap` and construction returns
that error instead of an adapter.  The outcomes of the two native
operations are passed as explicit arguments. -/
def Backend.new (init : Except IoError Unit) (addWatch : Path → Except IoError Unit)
    (paths : List Path) : Except ErrorWrap Backend :=
  match init with
  | Except.error e => Except.error (ErrorWrap.fromIo e)
  | Except.ok _ =>
    match addAllWatches addWatch paths with
    | Except.error e => Except.error (ErrorWrap.fromIo e)
    | Except.ok _ => Except.ok { buffer := Buffer.new }

end Notify

namespace Notify

/-! ## Claims about the error model -/

/-- C4: for every `ErrorWrap`, `as_error_vec` returns, for `Multiple` built
from causes with arbitrary path subsets, exactly the causes in original
order (one entry per tuple), and for `General`, `All` and `Single` a
one-element list whose sole element is the wrapped cause; path association
is discarded. -/
theorem as_error_vec_spec (ve : List (Error × List Path)) (err : Error)
    (paths : List Path) :
    (ErrorWrap.Multiple ve).as_error_vec = ve.map (fun p => p.1) ∧
    (ErrorWrap.General err).as_error_vec = [err] ∧
    (ErrorWrap.All err).as_error_vec = [err] ∧
    (ErrorWrap.Single err paths).as_error_vec = [err] := by
  refine ⟨rfl, rfl, rfl, rfl⟩

/-- C8: the conversion from a generic I/O failure into the `Error` taxonomy
is total (it is a Lean function, hence defined on every input) and maps a
NotFound failure to `NonExistent` with an empty path list and every other
failure to the `Io` variant. -/
theorem error_fromIo_spec (err : IoError) :
    (err.kind = IoErrorKind.NotFound → Error.fromIo err = Error.NonExistent []) ∧
    (err.kind ≠ IoErrorKind.NotFound → Error.fromIo err = Error.Io err) := by
  obtain ⟨k⟩ := err
  cases k <;> simp [Error.fromIo]

/-- Witness for C8: evaluating the conversion at one NotFound input and one
PermissionDenied input. -/
theorem error_fromIo_spec_witness :
    Error.fromIo { kind := IoErrorKind.NotFound } = Error.NonExistent [] ∧
    Error.fromIo { kind := IoErrorKind.PermissionDenied } =
      Error.Io { kind := IoErrorKind.PermissionDenied } := by
  exact ⟨(error_fromIo_spec { kind := IoErrorKind.NotFound }).1 rfl,
    (error_fromIo_spec { kind := IoErrorKind.PermissionDenied }).2 (by decide)⟩

/-! ## Claims about the event model and the translation chain -/

/-- C5: two events agreeing on kind, paths, relid and source are equal and
hash identically regardless of their attribute maps, and two events
differing in any of those four fields are unequal: equality and equal hash
input are each equivalent to agreement on exactly those four fields. -/
theorem event_eq_hash_spec (a b : Event) :
    (Event.eqExceptAttrs a b = true ↔
      (a.kind = b.kind ∧ a.paths = b.paths ∧ a.relid = b.relid ∧ a.source = b.source)) ∧
    (Event.hashInput a = Event.hashInput b ↔
      (a.kind = b.kind ∧ a.paths = b.paths ∧ a.relid = b.relid ∧ a.source = b.source)) := by
  constructor
  · simp [Event.eqExceptAttrs, and_assoc]
  · simp [Event.hashInput, Prod.ext_iff, and_assoc]

/-- Witness for C5: two concrete events differing only in `attrs` are
equal under `eqExceptAttrs` and have equal hash input; two events differing
only in `relid` are unequal. -/
theorem event_eq_hash_spec_witness :
    (Event.eqExceptAttrs
        { kind := EventKind.Any, paths := ["a"], relid := none, attrs := [1], source := "s" }
        { kind := EventKind.Any, paths := ["a"], relid := none, attrs := [2], source := "s" }
       = true ∧
     Event.hashInput
        { kind := EventKind.Any, paths := ["a"], relid := none, attrs := [1], source := "s" }
       = Event.hashInput
        { kind := EventKind.Any, paths := ["a"], relid := none, attrs := [2], source := "s" }) ∧
    Event.eqExceptAttrs
        { kind := EventKind.Any, paths := ["a"], relid := none, attrs := [1], source := "s" }
        { kind := EventKind.Any, paths := ["a"], relid := some 7, attrs := [1], source := "s" }
      = false := by
  refine ⟨⟨?_, ?_⟩, ?_⟩
  · exact (event_eq_hash_spec _ _).1.mpr ⟨rfl, rfl, rfl, rfl⟩
  · exact (event_eq_hash_spec _ _).2.mpr ⟨rfl, rfl, rfl, rfl⟩
  · have h := (event_eq_hash_spec
      { kind := EventKind.Any, paths := ["a"], relid := none, attrs := [1], source := "s" }
      { kind := EventKind.Any, paths := ["a"], relid := some 7, attrs := [1], source := "s" }).1
    by_contra hne
    have : (none : Option Nat) = some 7 := by
      have := (h.mp (by revert hne; cases Event.eqExceptAttrs .. <;> simp)).2.2.1
      exact this
    cases this

/-- C1: the translation of a native mask to an `EventKind` coincides, on
every mask (including masks with several flags set at once), with the
first-match evaluation of the §4.4 precedence table in its listed order. -/
theorem translateKind_matches_spec_table (m : EventMask) :
    translateKind m = decodeByRows specPrecedenceRows m := by
  rfl

/-- C6: every translated native record yields an event whose paths are the
singleton of the attached name if present and empty otherwise, whose relid
is the correlation cookie when nonzero and `none` when zero, whose
attribute map is empty, and whose source is the stable name "inotify". -/
theorem translateEvent_fields_spec (e : NativeEvent) :
    (∀ s, e.name = some s → (translateEvent e).paths = [s]) ∧
    (e.name = none → (translateEvent e).paths = []) ∧
    (e.cookie = 0 → (translateEvent e).relid = none) ∧
    (e.cookie ≠ 0 → (translateEvent e).relid = some e.cookie) ∧
    (translateEvent e).attrs = [] ∧
    (translateEvent e).source = "inotify" := by
  refine ⟨?_, ?_, ?_, ?_, rfl, rfl⟩
  · intro s hs
    simp [translateEvent, hs]
  · intro hs
    simp [translateEvent, hs]
  · intro hc
    simp [translateEvent, hc]
  · intro hc
    cases hcook : e.cookie with
    | zero => exact absurd hcook hc
    | succ c => simp [translateEvent, hcook]

/-- Witness for C6: a concrete record with a name and a nonzero cookie,
and a concrete record with no name and zero cookie. -/
theorem translateEvent_fields_spec_witness :
    (translateEvent { mask := {}, name := some "f", cookie := 5 }).paths = ["f"] ∧
    (translateEvent { mask := {}, name := some "f", cookie := 5 }).relid = some 5 ∧
    (translateEvent { mask := {}, name := none, cookie := 0 }).paths = [] ∧
    (translateEvent { mask := {}, name := none, cookie := 0 }).relid = none := by
  refine ⟨?_, ?_, ?_, ?_⟩
  · exact (translateEvent_fields_spec { mask := {}, name := some "f", cookie := 5 }).1 "f" rfl
  · exact (translateEvent_fields_spec
      { mask := {}, name := some "f", cookie := 5 }).2.2.2.1 (by decide)
  · exact (translateEvent_fields_spec { mask := {}, name := none, cookie := 0 }).2.1 rfl
  · exact (translateEvent_fields_spec { mask := {}, name := none, cookie := 0 }).2.2.1 rfl

/-! ## Helper lemmas about the read-translate-buffer cycle -/

/-- Walking a prefix of translatable records (no overflow, no ignored flag)
over an open buffer appends their translations to the queue and leaves the
buffer open, before processing continues with the remaining records. -/
lemma processEventsAux_translatable_run (pre rest : List NativeEvent) (q : List Event)
    (hpre : ∀ e ∈ pre, e.mask.q_overflow = false ∧ e.mask.ignored = false) :
    processEventsAux { queue := q, closed := false } (pre ++ rest) =
      processEventsAux { queue := q ++ pre.map translateEvent, closed := false } rest := by
  induction pre generalizing q with
  | nil => simp
  | cons e pre ih =>
    have he := hpre e (by simp)
    have hrest : ∀ x ∈ pre, x.mask.q_overflow = false ∧ x.mask.ignored = false :=
      fun x hx => hpre x (by simp [hx])
    rw [List.cons_append]
    show processEventsAux { queue := q, closed := false } (e :: (pre ++ rest)) = _
    rw [processEventsAux]
    simp only [he.1, he.2, Bool.false_eq_true, if_false]
    have hpush : Buffer.push { queue := q, closed := false } (translateEvent e) =
        { queue := q ++ [translateEvent e], closed := false } := by
      simp [Buffer.push]
    rw [hpush, ih (q ++ [translateEvent e]) hrest]
    simp

/-- A pull with the buffer still open consumes the next scheduled batch. -/
lemma runPolls_open_step (b : Backend) (batch : List NativeEvent)
    (rest : List (List NativeEvent)) (k : Nat) (hb : b.buffer.closed = false) :
    runPolls b (batch :: rest) (k + 1) =
      (b.poll batch).1 :: runPolls (b.poll batch).2 rest k := by
  rcases hp : b.poll batch with ⟨out, b2⟩
  simp [runPolls, hb, hp]

/-- A pull with the buffer closed consumes no scheduled batch. -/
lemma runPolls_closed_step (b : Backend) (batches : List (List NativeEvent))
    (k : Nat) (hb : b.buffer.closed = true) :
    runPolls b batches (k + 1) =
      (b.poll []).1 :: runPolls (b.poll []).2 batches k := by
  rcases hp : b.poll [] with ⟨out, b2⟩
  simp [runPolls, hb, hp]

/-- A closed empty buffer yields end-of-stream on every pull. -/
lemma runPolls_terminated (batches : List (List NativeEvent)) (k : Nat) :
    runPolls { buffer := { queue := [], closed := true } } batches k =
      List.replicate k PollOutcome.endOfStream := by
  induction k generalizing batches with
  | zero => rfl
  | succ k ih =>
    rw [runPolls_closed_step _ _ _ rfl]
    have hp : Backend.poll { buffer := { queue := [], closed := true } } [] =
        (PollOutcome.endOfStream, { buffer := { queue := [], closed := true } }) := rfl
    rw [hp]
    simp [ih, List.replicate]

/-- A closed buffer first drains its queued events in order, then yields
end-of-stream on every further pull, regardless of the batch schedule. -/
lemma runPolls_drain (l : List Event) (batches : List (List NativeEvent)) (k : Nat) :
    runPolls { buffer := { queue := l, closed := true } } batches (l.length + k) =
      l.map PollOutcome.item ++ List.replicate k PollOutcome.endOfStream := by
  induction l generalizing batches with
  | nil => simpa using runPolls_terminated batches k
  | cons e l ih =>
    have hfuel : (e :: l).length + k = l.length + k + 1 := by
      simp [List.length_cons, Nat.add_right_comm]
    rw [hfuel, runPolls_closed_step _ _ _ rfl]
    have hp : Backend.poll { buffer := { queue := e :: l, closed := true } } [] =
        (PollOutcome.item e, { buffer := { queue := l, closed := true } }) := rfl
    rw [hp]
    simp [ih]

/-- When processing a batch closes the buffer without a failure, the pull
that read the batch behaves exactly like the first pull on the resulting
closed buffer, and the remaining schedule is never consumed. -/
lemma runPolls_eq_closed_of_none (b : Backend) (batch : List NativeEvent)
    (rest : List (List NativeEvent)) (f : Nat) (bufc : Buffer)
    (hb : b.buffer.closed = false)
    (hproc : processEventsAux b.buffer batch = (bufc, none))
    (hc : bufc.closed = true) :
    runPolls b (batch :: rest) f = runPolls { buffer := bufc } rest f := by
  cases f with
  | zero => rfl
  | succ f =>
    rcases hq : bufc.poll with ⟨out, buf2⟩
    have h1 : b.poll batch = (out, { buffer := buf2 }) := by
      simp [Backend.poll, hb, hproc, hq]
    have h2 : Backend.poll { buffer := bufc } [] = (out, { buffer := buf2 }) := by
      simp [Backend.poll, hc, hq]
    rw [runPolls_open_step _ _ _ _ hb, runPolls_closed_step _ _ _ hc, h1, h2]

/-! ## Claims about the streaming protocol -/

/-- C9: once the buffer is closed and drained, every subsequent pull
reports end-of-stream again: a single poll ignores whatever the native
queue holds and returns end-of-stream with the state unchanged, and any
number of pulls against any batch schedule yields only end-of-stream. -/
theorem terminated_absorbing (batch : List NativeEvent)
    (batches : List (List NativeEvent)) (k : Nat) :
    Backend.poll { buffer := { queue := [], closed := true } } batch =
      (PollOutcome.endOfStream, { buffer := { queue := [], closed := true } }) ∧
    runPolls { buffer := { queue := [], closed := true } } batches k =
      List.replicate k PollOutcome.endOfStream :=
  ⟨rfl, runPolls_terminated batches k⟩

/-- C10: in every batch, a record carrying the queue-overflow flag is never
itself translated or pushed and no record after it is translated or pushed
(the queue after processing is exactly the queue after processing only the
records before it); moreover, when the records before it are plain
translatable ones and the buffer is open, processing pushes exactly their
translations, closes the buffer, and reports the overflow failure — even
when the overflow record also carries the ignored flag or translatable
flags, since the overflow check comes first. -/
theorem overflow_precedence (b : Buffer) (pre post : List NativeEvent) (o : NativeEvent)
    (ho : o.mask.q_overflow = true) :
    (processEventsAux b (pre ++ o :: post)).1.queue = (processEventsAux b pre).1.queue ∧
    ((∀ e ∈ pre, e.mask.q_overflow = false ∧ e.mask.ignored = false) → b.closed = false →
      processEventsAux b (pre ++ o :: post) =
        ({ queue := b.queue ++ pre.map translateEvent, closed := true },
          some StreamError.UpstreamOverflow)) := by
  constructor
  · induction pre generalizing b with
    | nil => simp [processEventsAux, ho, Buffer.close]
    | cons e pre ih =>
      by_cases h1 : e.mask.q_overflow = true
      · simp [processEventsAux, h1]
      · by_cases h2 : e.mask.ignored = true
        · simp [processEventsAux, h1, h2]
        · simp only [List.cons_append, processEventsAux, h1, h2, Bool.false_eq_true,
            if_false]
          exact ih (b.push (translateEvent e))
  · intro hpre hb
    obtain ⟨q, c⟩ := b
    have hc : c = false := hb
    subst hc
    rw [processEventsAux_translatable_run pre (o :: post) q hpre]
    simp [processEventsAux, ho, Buffer.close]

/-- Witness for C10: a concrete batch of one create record, then a record
carrying overflow, ignored and access flags at once, then an access
record; only the create record is pushed, the buffer closes, the overflow
failure is reported. -/
theorem overflow_precedence_witness :
    processEventsAux { queue := [], closed := false }
        ([{ mask := { create := true }, name := some "f" }] ++
          { mask := { q_overflow := true, ignored := true, access := true } } ::
            [{ mask := { access := true } }]) =
      ({ queue := [translateEvent { mask := { create := true }, name := some "f" }],
          closed := true }, some StreamError.UpstreamOverflow) :=
  (overflow_precedence { queue := [], closed := false }
    [{ mask := { create := true }, name := some "f" }]
    [{ mask := { access := true } }]
    { mask := { q_overflow := true, ignored := true, access := true } } rfl).2
    (by decide) rfl

/-- C2 counterexample: with one event already accepted into the buffer and
a native overflow record then read, three pulls observe the overflow
failure first, then the buffered event, then end-of-stream — an event is
observed after the failure, so the order the claim states (buffered events
before the failure) does not hold. -/
theorem overflow_order_counterexample :
    runPolls { buffer := { queue := [{ kind := EventKind.Any, paths := ["p"], relid := none, attrs := [], source := "inotify" }], closed := false } }
        [[{ mask := { q_overflow := true } }]] 3 =
      [PollOutcome.failure StreamError.UpstreamOverflow,
        PollOutcome.item { kind := EventKind.Any, paths := ["p"], relid := none, attrs := [], source := "inotify" },
        PollOutcome.endOfStream] ∧
    runPolls { buffer := { queue := [{ kind := EventKind.Any, paths := ["p"], relid := none, attrs := [], source := "inotify" }], closed := false } }
        [[{ mask := { q_overflow := true } }]] 3 ≠
      [PollOutcome.item { kind := EventKind.Any, paths := ["p"], relid := none, attrs := [], source := "inotify" },
        PollOutcome.failure StreamError.UpstreamOverflow,
        PollOutcome.endOfStream] := by
  exact ⟨rfl, by decide⟩

/-- C2 as amended: with events E1..En accepted into the buffer and a
native batch whose records up to an overflow record are translatable, the
consumer observes exactly one UpstreamOverflow failure on the pull that
reads the overflow, then E1..En (and the translations of the records
preceding the overflow in that batch) in their original order, then
end-of-stream on every further pull; nothing after the overflow record is
translated and no further failure ever occurs. -/
theorem overflow_trace_spec (es : List Event) (pre : List NativeEvent) (o : NativeEvent)
    (post : List NativeEvent) (rest : List (List NativeEvent)) (k : Nat)
    (hpre : ∀ e ∈ pre, e.mask.q_overflow = false ∧ e.mask.ignored = false)
    (ho : o.mask.q_overflow = true) :
    runPolls { buffer := { queue := es, closed := false } } ((pre ++ o :: post) :: rest)
        ((es ++ pre.map translateEvent).length + k + 1) =
      PollOutcome.failure StreamError.UpstreamOverflow ::
        ((es ++ pre.map translateEvent).map PollOutcome.item ++
          List.replicate k PollOutcome.endOfStream) := by
  have hproc : processEventsAux { queue := es, closed := false } (pre ++ o :: post) =
      ({ queue := es ++ pre.map translateEvent, closed := true },
        some StreamError.UpstreamOverflow) := by
    rw [processEventsAux_translatable_run pre (o :: post) es hpre]
    simp [processEventsAux, ho, Buffer.close]
  have hpoll : Backend.poll { buffer := { queue := es, closed := false } }
      (pre ++ o :: post) =
      (PollOutcome.failure StreamError.UpstreamOverflow,
        { buffer := { queue := es ++ pre.map translateEvent, closed := true } }) := by
    simp [Backend.poll, hproc]
  rw [runPolls_open_step _ _ _ _ rfl, hpoll, runPolls_drain]

/-- Witness for C2 as amended: one buffered event and a batch holding only
an overflow record; three pulls observe the failure, the event, then
end-of-stream. -/
theorem overflow_trace_spec_witness :
    runPolls { buffer := { queue := [{ kind := EventKind.Any, paths := ["q"], relid := none, attrs := [], source := "inotify" }], closed := false } }
        [[{ mask := { q_overflow := true } }]] 3 =
      [PollOutcome.failure StreamError.UpstreamOverflow,
        PollOutcome.item { kind := EventKind.Any, paths := ["q"], relid := none, attrs := [], source := "inotify" },
        PollOutcome.endOfStream] :=
  overflow_trace_spec
    [{ kind := EventKind.Any, paths := ["q"], relid := none, attrs := [], source := "inotify" }]
    [] { mask := { q_overflow := true } } [] [] 1 (by decide) rfl

/-- C3: a native batch whose records up to a watch-removed (ignored)
record are translatable and whose ignored record does not also carry the
overflow flag closes the buffer and stops translating the remaining
records of the batch; the consumer observes the buffered events followed
by the translations of the records preceding the ignored record, then
end-of-stream on every further pull — no failure outcome ever appears in
the trace. -/
theorem ignored_trace_spec (es : List Event) (pre : List NativeEvent) (i : NativeEvent)
    (post : List NativeEvent) (rest : List (List NativeEvent)) (k : Nat)
    (hpre : ∀ e ∈ pre, e.mask.q_overflow = false ∧ e.mask.ignored = false)
    (hi : i.mask.ignored = true) (hio : i.mask.q_overflow = false) :
    runPolls { buffer := { queue := es, closed := false } } ((pre ++ i :: post) :: rest)
        ((es ++ pre.map translateEvent).length + k) =
      (es ++ pre.map translateEvent).map PollOutcome.item ++
        List.replicate k PollOutcome.endOfStream := by
  have hproc : processEventsAux { queue := es, closed := false } (pre ++ i :: post) =
      ({ queue := es ++ pre.map translateEvent, closed := true }, none) := by
    rw [processEventsAux_translatable_run pre (i :: post) es hpre]
    simp [processEventsAux, hio, hi, Buffer.close]
  rw [runPolls_eq_closed_of_none _ _ _ _ _ rfl hproc rfl]
  exact runPolls_drain _ rest k

/-- Witness for C3: an empty buffer and a batch holding a create record,
an ignored record, then an access record; two pulls observe the translated
create event then end-of-stream, the trailing access record is never
translated and no failure appears. -/
theorem ignored_trace_spec_witness :
    runPolls { buffer := { queue := [], closed := false } }
        [[{ mask := { create := true, isdir := true }, name := some "d" },
          { mask := { ignored := true } },
          { mask := { access := true } }]] 2 =
      [PollOutcome.item { kind := EventKind.Create CreateKind.Folder, paths := ["d"], relid := none, attrs := [], source := "inotify" },
        PollOutcome.endOfStream] :=
  ignored_trace_spec [] [{ mask := { create := true, isdir := true }, name := some "d" }]
    { mask := { ignored := true } } [{ mask := { access := true } }] [] 1
    (by decide) rfl rfl

/-! ## Claims about construction -/

/-- C7 counterexample: with a healthy native session and watch
registration failing on the second of two paths, construction returns an
`ErrorWrap` — but the `General` variant (the io::Error conversion chain
wraps every such failure as `General`), not `Single` or `Multiple` as the
claim states. -/
theorem construction_variant_counterexample :
    Backend.new (Except.ok ())
        (fun p => if p = "b" then Except.error { kind := IoErrorKind.Other 0 }
          else Except.ok ())
        ["a", "b"] =
      Except.error (ErrorWrap.General (Error.Io { kind := IoErrorKind.Other 0 })) ∧
    ErrorWrap.isSingleOrMultiple
        (ErrorWrap.General (Error.Io { kind := IoErrorKind.Other 0 })) = false :=
  ⟨rfl, rfl⟩

/-- C7 as amended: if initialising the native session or registering the
watch for any path fails, construction returns an `ErrorWrap` and no
adapter instance is returned — construction succeeds exactly when the
session initialised and every path registered; a registration failure is
reported (as `ErrorWrap::General`, since the io::Error conversion carries
no path attribution) rather than silently dropped. -/
theorem construction_reports_errorwrap (init : Except IoError Unit)
    (addWatch : Path → Except IoError Unit) (paths : List Path) :
    (exceptOk (Backend.new init addWatch paths) = true ↔
      (exceptOk init = true ∧ exceptOk (addAllWatches addWatch paths) = true)) ∧
    (∀ e, init = Except.error e →
      Backend.new init addWatch paths =
        Except.error (ErrorWrap.General (Error.fromIo e))) ∧
    (∀ e, exceptOk init = true → addAllWatches addWatch paths = Except.error e →
      Backend.new init addWatch paths =
        Except.error (ErrorWrap.General (Error.fromIo e))) := by
  refine ⟨?_, ?_, ?_⟩
  · cases init with
    | error e => simp [Backend.new, exceptOk]
    | ok u =>
      cases u
      cases h : addAllWatches addWatch paths with
      | error e => simp [Backend.new, h, exceptOk]
      | ok u2 =>
        cases u2
        simp [Backend.new, h, exceptOk]
  · intro e he
    subst he
    rfl
  · intro e hinit h
    cases init with
    | error e2 => simp [exceptOk] at hinit
    | ok u =>
      cases u
      simp [Backend.new, h, ErrorWrap.fromIo, ErrorWrap.fromError]

/-- Witness for C7 as amended: the concrete partial-failure scenario of
the counterexample, discharged through the amended theorem. -/
theorem construction_reports_errorwrap_witness :
    Backend.new (Except.ok ())
        (fun p => if p = "c" then Except.error { kind := IoErrorKind.Other 1 }
          else Except.ok ())
        ["a", "c"] =
      Except.error (ErrorWrap.General (Error.Io { kind := IoErrorKind.Other 1 })) :=
  (construction_reports_errorwrap (Except.ok ())
    (fun p => if p = "c" then Except.error { kind := IoErrorKind.Other 1 }
      else Except.ok ())
    ["a", "c"]).2.2 { kind := IoErrorKind.Other 1 } rfl rfl

end Notify
